import Mathlib

/-!
Verification of the kumuluzee-go-discovery service-discovery library.

The development shallowly embeds the version-selection, instance-picking and
registration-loop logic of the `discovery` package (files `common.go`,
`etcd_discovery.go`, `consul_discovery.go` and their earlier iterations).
Machine integers (`int64`) are modelled as `Int` with explicit two's-complement
wrapping where overflow could matter; Go strings are modelled as `String`
processed through structurally recursive functions over `String.data`;
fallible operations return `Except String`.

The external `blang/semver` dependency (not part of the repository) is
modelled from its documented behaviour, restricted to release versions
`major.minor.patch` (the only versions this library constructs) and to the
range grammar the repository actually produces: space-separated AND
comparators with operators `>=`, `>`, `<=`, `<`, `=`/none, `!`/`!=`, plus the
documented x-wildcard forms (`x`, `N.x`, `N.M.x`); pre-release/build tags and
other grammar are modelled as parse errors.
-/

namespace KumuluzeeDiscovery

/-- Semantic version, model of `blang/semver.Version` restricted to release
versions (`Major`, `Minor`, `Patch`; no pre-release or build metadata). -/
structure SemVer where
  major : Nat
  minor : Nat
  patch : Nat
deriving DecidableEq, Repr, Inhabited

/-- Model of `blang/semver` `Version.Compare` on release versions:
compare major, then minor, then patch, returning -1, 0 or 1. -/
def SemVer.compareV (v o : SemVer) : Int :=
  if v.major ≠ o.major then (if v.major > o.major then 1 else -1)
  else if v.minor ≠ o.minor then (if v.minor > o.minor then 1 else -1)
  else if v.patch ≠ o.patch then (if v.patch > o.patch then 1 else -1)
  else 0

/-- Model of `Version.GTE`. -/
def SemVer.GTE (v o : SemVer) : Bool := v.compareV o ≥ 0

/-- Model of `Version.GT`. -/
def SemVer.GT (v o : SemVer) : Bool := v.compareV o > 0

/-- Model of `Version.LTE`. -/
def SemVer.LTE (v o : SemVer) : Bool := v.compareV o ≤ 0

/-- Model of `Version.LT`. -/
def SemVer.LT (v o : SemVer) : Bool := v.compareV o < 0

/-- Model of `Version.EQ`. -/
def SemVer.EQV (v o : SemVer) : Bool := v.compareV o = 0

/-- Model of `Version.NE`. -/
def SemVer.NEV (v o : SemVer) : Bool := v.compareV o ≠ 0

/-- Model of `Version.String()`: `"major.minor.patch"`. -/
def SemVer.render (v : SemVer) : String :=
  toString v.major ++ "." ++ toString v.minor ++ "." ++ toString v.patch

/-- Comparator operators of `blang/semver` ranges. -/
inductive CompOp where
  | ge | gt | le | lt | eqv | nev
deriving DecidableEq, Repr

/-- One comparator of a `blang/semver` range, e.g. `>=1.2.3`. -/
structure Comparator where
  op : CompOp
  ver : SemVer
deriving DecidableEq, Repr

/-- Whether a version satisfies one comparator (model of the comparator
functions `compGE`, `compGT`, ... used by `blang/semver` ranges). -/
def Comparator.sat (c : Comparator) (v : SemVer) : Bool :=
  match c.op with
  | .ge => v.GTE c.ver
  | .gt => v.GT c.ver
  | .le => v.LTE c.ver
  | .lt => v.LT c.ver
  | .eqv => v.EQV c.ver
  | .nev => v.NEV c.ver

/-- A parsed range is the conjunction of its comparators; `rangeMatches r v`
is the application of the `semver.Range` predicate to `v`. -/
def rangeMatches (r : List Comparator) (v : SemVer) : Bool :=
  r.all (fun c => c.sat v)

/-! String-processing helpers, structurally recursive over `List Char`. -/

/-- Split a character list on a separator character (like `strings.Split`). -/
def splitOnChar (sep : Char) : List Char → List (List Char)
  | [] => [[]]
  | c :: cs =>
    if c = sep then
      [] :: splitOnChar sep cs
    else
      match splitOnChar sep cs with
      | [] => [[c]]
      | t :: ts => (c :: t) :: ts

/-- Decimal digit test for a character. -/
def isDigitCh (c : Char) : Bool := '0' ≤ c && c ≤ '9'

/-- Numeric value of a digit list (most significant first). -/
def digitsToNat (cs : List Char) : Nat :=
  cs.foldl (fun n c => 10 * n + (c.toNat - 48)) 0

/-- Parse a numeric semver component: digits only, no leading zeros
(model of the numeric-identifier rule enforced by `blang/semver.Parse`). -/
def parseNumericPart (cs : List Char) : Except String Nat :=
  if cs.isEmpty then .error "Invalid number"
  else if ¬ cs.all isDigitCh then .error "Invalid character(s) found in number"
  else if cs.length > 1 ∧ cs.head? = some '0' then .error "Numeric part must not contain leading zeroes"
  else .ok (digitsToNat cs)

/-- Model of `blang/semver.Parse` restricted to release versions: exactly
three dot-separated numeric parts (pre-release/build metadata, which this
repository never registers, is a parse error in the model). -/
def semverParse (cs : List Char) : Except String SemVer :=
  match splitOnChar '.' cs with
  | [a, b, c] => do
    let major ← parseNumericPart a
    let minor ← parseNumericPart b
    let patch ← parseNumericPart c
    pure ⟨major, minor, patch⟩
  | _ => .error "No Major.Minor.Patch elements found"

/-- Whitespace test matching `strings.TrimSpace`'s space cut-set for the
characters that can occur here. -/
def isSpaceCh (c : Char) : Bool := c = ' ' || c = '\t' || c = '\n' || c = '\r'

/-- Model of `strings.TrimSpace` on a character list. -/
def trimSpaces (cs : List Char) : List Char :=
  ((cs.dropWhile isSpaceCh).reverse.dropWhile isSpaceCh).reverse

/-- Model of `blang/semver.ParseTolerant`: trim space, strip a leading `v`,
pad a short `X` or `X.Y` version with `.0` parts, then parse strictly. -/
def semverParseTolerant (cs : List Char) : Except String SemVer :=
  let cs := trimSpaces cs
  let cs := if cs.head? = some 'v' then cs.tail else cs
  let parts := splitOnChar '.' cs
  if parts.length < 3 then
    if (parts.getLastD []).any (fun c => c = '+' || c = '-') then
      .error "Short version cannot contain PreRelease/Build meta data"
    else
      semverParse (List.intercalate ['.'] (parts ++ List.replicate (3 - parts.length) ['0']))
  else
    semverParse cs

/-- Leading comparator operator of a range token together with the remaining
version characters (model of `splitComparatorVersion`; `none` means the token
has no operator, i.e. a plain version). -/
def splitCompOp : List Char → Option CompOp × List Char
  | '>' :: '=' :: rest => (some .ge, rest)
  | '<' :: '=' :: rest => (some .le, rest)
  | '=' :: '=' :: rest => (some .eqv, rest)
  | '!' :: '=' :: rest => (some .nev, rest)
  | '>' :: rest => (some .gt, rest)
  | '<' :: rest => (some .lt, rest)
  | '=' :: rest => (some .eqv, rest)
  | '!' :: rest => (some .nev, rest)
  | rest => (none, rest)

/-- Expand one range token into comparators (model of one step of
`blang/semver.ParseRange`): a token containing the wildcard `x` is expanded
per the library's documented x-range semantics (`x` matches every version,
`N.x` matches `[N.0.0, (N+1).0.0)`, `N.M.x` matches `[N.M.0, N.(M+1).0)`);
a plain token becomes a single comparator. Wildcards combined with an
explicit operator are outside the grammar this repository produces and are
modelled as errors. -/
def expandRangeToken (cs : List Char) : Except String (List Comparator) :=
  let (op, vcs) := splitCompOp cs
  if vcs.contains 'x' then
    match op, splitOnChar '.' vcs with
    | none, [['x']] => .ok [⟨.ge, ⟨0, 0, 0⟩⟩]
    | none, [n, ['x']] => do
      let major ← parseNumericPart n
      .ok [⟨.ge, ⟨major, 0, 0⟩⟩, ⟨.lt, ⟨major + 1, 0, 0⟩⟩]
    | none, [n, m, ['x']] => do
      let major ← parseNumericPart n
      let minor ← parseNumericPart m
      .ok [⟨.ge, ⟨major, minor, 0⟩⟩, ⟨.lt, ⟨major, minor + 1, 0⟩⟩]
    | _, _ => .error "Wildcard range form not modelled"
  else do
    let v ← semverParse vcs
    .ok [⟨op.getD .eqv, v⟩]

/-- Model of `blang/semver.ParseRange` restricted to the conjunctive
(space-separated AND) grammar this repository produces: each token is one
comparator or x-range; the resulting range is their conjunction. -/
def parseRange (s : String) : Except String (List Comparator) := do
  let toks := (splitOnChar ' ' s.data).filter (fun t => ¬ t.isEmpty)
  if toks.isEmpty then
    .error "Could not get version from string"
  else
    toks.foldlM (fun acc t => do pure (acc ++ (← expandRangeToken t))) []

/-! Embedding of `discovery/common.go` (and its identical earlier iteration
`unnamed/part_006`). -/

/-- Replace every occurrence of a character (model of
`strings.Replace(s, "*", "x", -1)` for single-character arguments). -/
def replaceChar (from_ to_ : Char) (cs : List Char) : List Char :=
  cs.map (fun c => if c = from_ then to_ else c)

/-- Embeds `parseVersion` from `discovery/common.go` lines 103-125: replace
`*` by `x`; on a `^` constraint, parse the rest tolerantly, increment the
major component (leaving minor and patch unchanged) and parse the range
`">=" + ver.String() + " <" + verNext.String()`; on a `~` constraint the same
with the minor component incremented; otherwise parse the string as a range
directly. -/
def parseVersion (version : String) : Except String (List Comparator) :=
  let version : String := ⟨replaceChar '*' 'x' version.data⟩
  if version.data.head? = some '^' then
    match semverParseTolerant version.data.tail with
    | .ok ver =>
      let verNext : SemVer := { ver with major := ver.major + 1 }
      parseRange (">=" ++ ver.render ++ " <" ++ verNext.render)
    | .error e => .error e
  else if version.data.head? = some '~' then
    match semverParseTolerant version.data.tail with
    | .ok ver =>
      let verNext : SemVer := { ver with minor := ver.minor + 1 }
      parseRange (">=" ++ ver.render ++ " <" ++ verNext.render)
    | .error e => .error e
  else
    parseRange version

/-- Embeds the `discoveredService` struct of `discovery/common.go`
(version, id, direct URL, gateway URL). -/
structure discoveredService where
  version : SemVer
  id : String
  directURL : String
  gatewayURL : String
deriving DecidableEq, Repr, Inhabited

/-- First loop of `extractServicesWithVersion`: starting from the zero value
`semver.Version{}` (that is, `0.0.0`), remember the greatest version among
the services accepted by `wantVersion`. -/
def latestMatchingVersion (wantVersion : SemVer → Bool) :
    List discoveredService → SemVer → SemVer
  | [], latestVersion => latestVersion
  | s :: rest, latestVersion =>
    latestMatchingVersion wantVersion rest
      (if wantVersion s.version then
        (if s.version.GTE latestVersion then s.version else latestVersion)
      else latestVersion)

/-- Second loop of `extractServicesWithVersion`: keep every service whose
version equals `latestVersion` (the loop checks only `EQ`, not
`wantVersion`). -/
def collectAtVersion : List discoveredService → SemVer → List discoveredService
  | [], _ => []
  | s :: rest, latestVersion =>
    if s.version.EQV latestVersion then s :: collectAtVersion rest latestVersion
    else collectAtVersion rest latestVersion

/-- Embeds `extractServicesWithVersion` from `discovery/common.go` lines
127-151. -/
def extractServicesWithVersion (services : List discoveredService)
    (wantVersion : SemVer → Bool) : List discoveredService :=
  let latestVersion := latestMatchingVersion wantVersion services ⟨0, 0, 0⟩
  collectAtVersion services latestVersion

/-- Embeds the `DiscoverOptions` struct (`unnamed/part_001`). -/
structure DiscoverOptions where
  Value : String
  Environment : String
  Version : String
  AccessType : String
deriving DecidableEq, Repr

/-- Embeds the constant `AccessTypeDirect`. -/
def AccessTypeDirect : String := "direct"

/-- Embeds the constant `AccessTypeGateway`. -/
def AccessTypeGateway : String := "gateway"

/-- Embeds `fillDefaultDiscoverOptions` from `discovery/common.go` lines
58-69, as a function on the options record (the Go code mutates through a
pointer). -/
def fillDefaultDiscoverOptions (options : DiscoverOptions) : DiscoverOptions :=
  let options :=
    if options.Environment = "" then { options with Environment := "dev" } else options
  let options :=
    if options.Version = "" then { options with Version := ">=0.0.0" } else options
  if options.AccessType = "" then { options with AccessType := AccessTypeGateway } else options

/-- Embeds `pickRandomServiceInstance` from `discovery/common.go` lines
156-185. The call `rand.Intn(len(instances))` is modelled by the extra
input `ridx`, reduced modulo the list length (the Go value is always in
bounds); the returned pair is (service string, error), with `none` standing
for a nil error. -/
def pickRandomServiceInstance (discoveredInstances : List discoveredService)
    (options : DiscoverOptions) (lastKnownService : String) (ridx : Nat) :
    String × Option String :=
  match parseVersion options.Version with
  | .error e =>
    if lastKnownService ≠ "" then (lastKnownService, some ("wantVersion parse error: " ++ e))
    else ("", some ("wantVersion parse error: " ++ e))
  | .ok wantVersion =>
    let instances := extractServicesWithVersion discoveredInstances (rangeMatches wantVersion)
    if instances.length = 0 then
      if lastKnownService ≠ "" then (lastKnownService, some "No service found (no matching version)")
      else ("", some "No service found (no matching version)")
    else
      let randomInstance := instances.getD (ridx % instances.length) default
      if options.AccessType = AccessTypeGateway ∧ randomInstance.gatewayURL ≠ "" then
        (randomInstance.gatewayURL, none)
      else if randomInstance.directURL ≠ "" then
        (randomInstance.directURL, none)
      else
        if lastKnownService ≠ "" then (lastKnownService, some "No service found (no service with URL)")
        else ("", some "No service found (no service with URL)")

/-! Embedding of the registration loop of `discovery/etcd_discovery.go`
lines 175-270 (the loop of the consul iteration `unnamed/part_010` lines
186-219 is textually identical). Registry outcomes (etcd/consul call
successes) are oracle inputs; `int64` delays are `Int` with explicit
two's-complement wrapping. -/

/-- Two's-complement wrap of an `Int` into the `int64` value range. -/
def wrap64 (x : Int) : Int := (x + 2 ^ 63) % 2 ^ 64 - 2 ^ 63

/-- Embeds the backoff update of `run` (`etcd_discovery.go` lines 196-199):
`newRetryDelay := retryDelay * 2` (an `int64` multiplication, hence the
wrap), capped at `maxRetryDelay`. -/
def newRetryDelayAfterFailure (maxRetryDelay retryDelay : Int) : Int :=
  let newRetryDelay := wrap64 (retryDelay * 2)
  if newRetryDelay > maxRetryDelay then maxRetryDelay else newRetryDelay

/-- Which operation one iteration of `run` attempted. -/
inductive RunAction where
  | register | ttlUpdate
deriving DecidableEq, Repr

/-- Observable outcome of one iteration of `run`: the action attempted, the
`isRegistered` flag afterwards, the backoff sleep in milliseconds (`none`
when the iteration succeeded), the ping sleep in seconds (`none` when the
iteration failed), and the retry delay passed to the next iteration. -/
structure RunStepResult where
  action : RunAction
  isRegistered : Bool
  sleptMs : Option Int
  sleptSeconds : Option Int
  nextRetryDelay : Int
deriving DecidableEq, Repr

/-- Embeds one iteration of `run` (`etcd_discovery.go` lines 175-208):
attempt `register` when unregistered and `ttlUpdate` when registered
(`attemptOk` is the oracle outcome of that attempt); a successful register
sets `isRegistered`, a failed TTL update clears it; on failure sleep the
current retry delay and continue with the doubled-and-capped delay, on
success sleep `pingInterval` seconds and continue with `startRetryDelay`. -/
def runStep (startRetryDelay maxRetryDelay pingInterval : Int)
    (isRegistered : Bool) (retryDelay : Int) (attemptOk : Bool) : RunStepResult :=
  let (action, isRegistered') :=
    if !isRegistered then
      (RunAction.register, if attemptOk then true else isRegistered)
    else
      (RunAction.ttlUpdate, if !attemptOk then false else isRegistered)
  if !attemptOk then
    { action := action, isRegistered := isRegistered',
      sleptMs := some retryDelay, sleptSeconds := none,
      nextRetryDelay := newRetryDelayAfterFailure maxRetryDelay retryDelay }
  else
    { action := action, isRegistered := isRegistered',
      sleptMs := none, sleptSeconds := some pingInterval,
      nextRetryDelay := startRetryDelay }

/-- Iterated `run`: the trace of iterations produced by a list of oracle
attempt outcomes, threading the `isRegistered` flag and the retry delay
exactly as the tail-recursive `run` does. -/
def runTrace (startRetryDelay maxRetryDelay pingInterval : Int) :
    Bool → Int → List Bool → List RunStepResult
  | _, _, [] => []
  | isRegistered, retryDelay, attemptOk :: rest =>
    let r := runStep startRetryDelay maxRetryDelay pingInterval isRegistered retryDelay attemptOk
    r :: runTrace startRetryDelay maxRetryDelay pingInterval r.isRegistered r.nextRetryDelay rest

/-- Embeds `register` of `etcd_discovery.go` lines 210-250, abstracted over
the registry: `probeFound` is the result of `isServiceRegistered()`,
`setDirOk`/`setUrlOk` are the outcomes of the two `kvClient.Set` calls.
Returns the boolean result together with the number of registry `Set` calls
issued: in the singleton-conflict branch the function returns `false`
without issuing any registry write. -/
def register (probeFound singleton setDirOk setUrlOk : Bool) : Bool × Nat :=
  if probeFound && singleton then (false, 0)
  else if !setDirOk then (false, 1)
  else if !setUrlOk then (false, 2)
  else (true, 2)

/-- Result of the older consul `register` (`discovery/consul_discovery.go`
lines 174-215): final `isRegistered` flag of the registration record, number
of agent `ServiceRegister` calls issued, and the backoff sleeps performed. -/
structure ConsulRegisterResult where
  isRegistered : Bool
  agentCalls : Nat
  sleeps : List Int
deriving DecidableEq, Repr

/-- Embeds `register` of the older consul iteration
(`discovery/consul_discovery.go` lines 174-215). Each element of `calls` is
the oracle pair (result of `isServiceRegistered`, outcome of
`Agent().ServiceRegister`) for one recursive invocation; the list bounds the
recursion. In the singleton-conflict branch the function only logs and
returns: no agent call, no sleep, no recursion, and `reg.isRegistered` is
never set. On an agent error it sleeps the current delay and recurses with
the doubled-and-capped delay; on success it sets `reg.isRegistered`. -/
def consulRegisterOld (singleton : Bool) (maxRetryDelay : Int) :
    Int → List (Bool × Bool) → ConsulRegisterResult
  | _, [] => { isRegistered := false, agentCalls := 0, sleeps := [] }
  | retryDelay, (probeFound, agentOk) :: rest =>
    if probeFound && singleton then
      { isRegistered := false, agentCalls := 0, sleeps := [] }
    else if agentOk then
      { isRegistered := true, agentCalls := 1, sleeps := [] }
    else
      let r := consulRegisterOld singleton maxRetryDelay
        (newRetryDelayAfterFailure maxRetryDelay retryDelay) rest
      { isRegistered := r.isRegistered, agentCalls := r.agentCalls + 1,
        sleeps := retryDelay :: r.sleeps }

/-! Embedding of the instance-extraction loop of
`discovery/etcd_discovery.go` `DiscoverService`, lines 114-148. -/

/-- Node of the etcd key-value response tree (`client.Node`: key, value,
child nodes). -/
inductive ENode where
  | node (key : String) (value : String) (nodes : List ENode)

/-- Key of a response node. -/
def ENode.key : ENode → String
  | .node k _ _ => k

/-- Value of a response node. -/
def ENode.value : ENode → String
  | .node _ v _ => v

/-- Child nodes of a response node. -/
def ENode.nodes : ENode → List ENode
  | .node _ _ ns => ns

/-- Embeds Go's `path.Base`: strip trailing slashes, take the part after the
last slash; `""` gives `"."` and an all-slash path gives `"/"`. -/
def pathBase (s : String) : String :=
  if s.data.isEmpty then "."
  else
    let cs := (s.data.reverse.dropWhile (fun c => c = '/')).reverse
    if cs.isEmpty then "/"
    else ⟨(cs.reverse.takeWhile (fun c => c ≠ '/')).reverse⟩

/-- Embeds the inner search loop of `DiscoverService` lines 117-123: the
first child of a version directory whose key has base name `"instances"`
(`none` models the `instances` pointer remaining nil). -/
def findInstancesChild : List ENode → Option ENode
  | [] => none
  | n :: rest =>
    if pathBase n.key = "instances" then some n else findInstancesChild rest

/-- Inner per-instance loop of `DiscoverService` lines 137-144: the last
child named `url` sets the direct URL and the last child named `gatewayUrl`
sets the gateway URL. -/
def setInstanceUrls : List ENode → discoveredService → discoveredService
  | [], di => di
  | n :: rest, di =>
    let di :=
      if pathBase n.key = "url" then { di with directURL := n.value }
      else if pathBase n.key = "gatewayUrl" then { di with gatewayURL := n.value }
      else di
    setInstanceUrls rest di

/-- Instance loop of `DiscoverService` lines 126-147 for one version
directory: each instance node yields a `discoveredService`; a version string
that fails tolerant semver parsing breaks out of the loop (dropping every
instance of that version). -/
def processInstances (currentVersion : String) : List ENode → List discoveredService
  | [] => []
  | inst :: rest =>
    match semverParseTolerant currentVersion.data with
    | .error _ => []
    | .ok version =>
      setInstanceUrls inst.nodes
          { version := version, id := pathBase inst.key, directURL := "", gatewayURL := "" }
        :: processInstances currentVersion rest

/-- Embeds the outer version loop of `DiscoverService` lines 114-148 over
`resp.Node.Nodes`. A version directory without an `instances` child leaves
the `instances` pointer nil and the loop dereferences it
(`instances.Nodes`), which panics at run time; the panic is modelled as
`none`. -/
def etcdExtractInstances : List ENode → Option (List discoveredService)
  | [] => some []
  | nodeVersion :: rest =>
    let currentVersion := pathBase nodeVersion.key
    match findInstancesChild nodeVersion.nodes with
    | none => none
    | some instances =>
      match etcdExtractInstances rest with
      | none => none
      | some tl => some (processInstances currentVersion instances.nodes ++ tl)

/-! Spec-side predicates, for comparison with the parsed ranges. -/

/-- Follows the spec's words for the caret constraint: `^X.Y.Z` accepts
exactly the versions `v` with `X.Y.Z <= v < (X+1).0.0`. -/
def specCaretMatches (x y z : Nat) (v : SemVer) : Bool :=
  SemVer.GTE v ⟨x, y, z⟩ && SemVer.LT v ⟨x + 1, 0, 0⟩

/-- Follows the spec's words for the tilde constraint: `~X.Y.Z` accepts
exactly the versions `v` with `X.Y.Z <= v < X.(Y+1).0`. -/
def specTildeMatches (x y z : Nat) (v : SemVer) : Bool :=
  SemVer.GTE v ⟨x, y, z⟩ && SemVer.LT v ⟨x, y + 1, 0⟩

/-- The instance picked by `randomInstance := instances[rand.Intn(len(instances))]`
for a given random draw `ridx`. -/
def pickedInstance (dis : List discoveredService) (r : List Comparator) (ridx : Nat) :
    discoveredService :=
  let instances := extractServicesWithVersion dis (rangeMatches r)
  instances.getD (ridx % instances.length) default

/-! Claim theorems. -/

/-- C1: evaluation of the code at the failing input. With a single
discovered instance at version `0.0.0` and the constraint `>=1.0.0`
(satisfied by no instance), `extractServicesWithVersion` nevertheless
returns the `0.0.0` instance — its version does not satisfy the constraint —
because the `latestVersion` zero value `0.0.0` acts as a sentinel; the
Discover pick then returns that instance's URL with a nil error instead of
failing with the no-matching-version error. -/
theorem C1_zero_version_instance_selected :
    extractServicesWithVersion [⟨⟨0, 0, 0⟩, "i0", "http://10.0.0.1:9000", ""⟩]
        (rangeMatches [⟨.ge, ⟨1, 0, 0⟩⟩]) = [⟨⟨0, 0, 0⟩, "i0", "http://10.0.0.1:9000", ""⟩]
    ∧ rangeMatches [⟨.ge, ⟨1, 0, 0⟩⟩] ⟨0, 0, 0⟩ = false
    ∧ parseVersion ">=1.0.0" = .ok [⟨.ge, ⟨1, 0, 0⟩⟩]
    ∧ pickRandomServiceInstance [⟨⟨0, 0, 0⟩, "i0", "http://10.0.0.1:9000", ""⟩]
        ⟨"svc", "dev", ">=1.0.0", AccessTypeGateway⟩ "" 0 = ("http://10.0.0.1:9000", none) :=
  ⟨by decide, by decide, by rfl, by rfl⟩

/-- C2: evaluation of the code at the failing input. For the constraint
`^1.2.3` the code builds the range `>=1.2.3 <2.2.3` (the major component is
incremented but minor and patch are not reset to zero), so it accepts
version `2.1.0`, which the claimed bound `[1.2.3, 2.0.0)` rejects. -/
theorem C2_caret_upper_bound_bug :
    parseVersion "^1.2.3" = .ok [⟨.ge, ⟨1, 2, 3⟩⟩, ⟨.lt, ⟨2, 2, 3⟩⟩]
    ∧ rangeMatches [⟨.ge, ⟨1, 2, 3⟩⟩, ⟨.lt, ⟨2, 2, 3⟩⟩] ⟨2, 1, 0⟩ = true
    ∧ specCaretMatches 1 2 3 ⟨2, 1, 0⟩ = false :=
  ⟨by rfl, by decide, by decide⟩

/-- C3: evaluation of the code at the failing input. For the constraint
`~1.2.3` the code builds the range `>=1.2.3 <1.3.3` (the minor component is
incremented but patch is not reset to zero), so it accepts version `1.3.2`,
which the claimed bound `[1.2.3, 1.3.0)` rejects. -/
theorem C3_tilde_upper_bound_bug :
    parseVersion "~1.2.3" = .ok [⟨.ge, ⟨1, 2, 3⟩⟩, ⟨.lt, ⟨1, 3, 3⟩⟩]
    ∧ rangeMatches [⟨.ge, ⟨1, 2, 3⟩⟩, ⟨.lt, ⟨1, 3, 3⟩⟩] ⟨1, 3, 2⟩ = true
    ∧ specTildeMatches 1 2 3 ⟨1, 3, 2⟩ = false :=
  ⟨by rfl, by decide, by decide⟩

/-- Helper: the two's-complement wrap is the identity on in-range values. -/
theorem wrap64_eq_self (x : Int) (h0 : -(2 ^ 63) ≤ x) (h1 : x < 2 ^ 63) : wrap64 x = x := by
  have h : (x + 2 ^ 63) % 2 ^ 64 = x + 2 ^ 63 :=
    Int.emod_eq_of_lt (by omega) (by omega)
  simp only [wrap64]
  omega

/-- Helper: absent overflow, the backoff update is `min (2*d) m`. -/
theorem newRetryDelayAfterFailure_eq_min (m d : Int) (h0 : 0 ≤ d) (h1 : 2 * d < 2 ^ 63) :
    newRetryDelayAfterFailure m d = min (2 * d) m := by
  have hw : wrap64 (d * 2) = d * 2 := wrap64_eq_self _ (by omega) (by omega)
  simp only [newRetryDelayAfterFailure, hw]
  rw [Int.min_def]
  split <;> split <;> omega

/-- C4: exponential-backoff contract of the registration loop. After a
failed attempt (register or TTL update alike) the delay passed to the next
iteration is `min (2 * current, maxRetryDelay)`; after a successful attempt
it is reset to `startRetryDelay`; three consecutive failures starting from
`startDelay` sleep `startDelay`, `2*startDelay`, `4*startDelay` (each capped
at `maxDelay`), the failure delay being carried forward between them; a
success in between resets the following failure's sleep to `startDelay`. -/
theorem C4_backoff_contract (s m p d : Int) (isReg : Bool)
    (hs0 : 0 ≤ s) (hsm : s ≤ m) (hd0 : 0 ≤ d)
    (hdov : 2 * d < 2 ^ 63) (hmov : 2 * m < 2 ^ 63) :
    (runStep s m p isReg d false).nextRetryDelay = min (2 * d) m
    ∧ (runStep s m p isReg d true).nextRetryDelay = s
    ∧ (runTrace s m p false s [false, false, false]).map (fun r => r.sleptMs)
        = [some s, some (min (2 * s) m), some (min (4 * s) m)]
    ∧ (runTrace s m p false s [false, true, false]).map (fun r => r.sleptMs)
        = [some s, none, some s] := by
  have h2s : 2 * s < 2 ^ 63 := by omega
  have hmin0 : 0 ≤ min (2 * s) m := by omega
  have hmin1 : 2 * min (2 * s) m < 2 ^ 63 := by omega
  have hstep : newRetryDelayAfterFailure m s = min (2 * s) m :=
    newRetryDelayAfterFailure_eq_min m s hs0 h2s
  have hstep2 : newRetryDelayAfterFailure m (min (2 * s) m) = min (4 * s) m := by
    rw [newRetryDelayAfterFailure_eq_min m _ hmin0 hmin1]
    omega
  refine ⟨?_, ?_, ?_, ?_⟩
  · cases isReg <;>
      simp [runStep, newRetryDelayAfterFailure_eq_min m d hd0 hdov]
  · cases isReg <;> simp [runStep]
  · simp [runTrace, runStep, hstep, hstep2]
  · simp [runTrace, runStep, hstep]

/-- C4 witness at the default configuration (`startDelay` 500 ms,
`maxDelay` 900000 ms, ping interval 20 s, current delay 500 ms). -/
theorem C4_backoff_contract_witness :
    (runStep 500 900000 20 false 500 false).nextRetryDelay = min (2 * 500) 900000
    ∧ (runStep 500 900000 20 false 500 true).nextRetryDelay = 500
    ∧ (runTrace 500 900000 20 false 500 [false, false, false]).map (fun r => r.sleptMs)
        = [some 500, some (min (2 * 500) 900000), some (min (4 * 500) 900000)]
    ∧ (runTrace 500 900000 20 false 500 [false, true, false]).map (fun r => r.sleptMs)
        = [some 500, none, some 500] :=
  C4_backoff_contract 500 900000 20 500 false (by decide) (by decide) (by decide)
    (by decide) (by decide)

/-- C5: the registration loop is a two-state machine over `isRegistered`:
each iteration attempts `register` exactly when the flag is false and the
TTL update exactly when it is true; a successful register sets the flag, a
failed TTL update clears it, and otherwise the flag is left unchanged. -/
theorem C5_registration_state_machine (s m p d : Int) (isReg ok : Bool) :
    (runStep s m p isReg d ok).action
        = (if isReg then RunAction.ttlUpdate else RunAction.register)
    ∧ (runStep s m p isReg d ok).isRegistered
        = (if isReg then (if ok then isReg else false) else (if ok then true else isReg)) := by
  cases isReg <;> cases ok <;> simp [runStep]

/-- C6 counterexample: in the older consul iteration
(`discovery/consul_discovery.go` register, lines 174-215) the
singleton-conflict branch does not retry. With `singleton` set, the probe
reporting an existing instance, the agent ready to succeed and further
invocations available, `register` issues no agent call, performs no backoff
sleep, triggers no retry, and leaves the record unregistered. -/
theorem C6_consul_singleton_skips_without_retry :
    consulRegisterOld true 900000 500 [(true, true), (true, true), (true, true)]
      = { isRegistered := false, agentCalls := 0, sleeps := [] } := by
  decide

/-- C6 amended: in the loop-based implementations (`etcd_discovery.go` and
the consul iteration `unnamed/part_010`), a singleton registration whose
probe finds an existing active instance writes nothing to the registry and
reports failure; the loop keeps `isRegistered` false, sleeps the backoff
delay, continues with the doubled-and-capped delay, and the next iteration
attempts a full registration again — the loop never transitions to
Registered on that iteration. -/
theorem C6_singleton_conflict_loop_retries (s m p d : Int) (setDirOk setUrlOk ok' : Bool) :
    register true true setDirOk setUrlOk = (false, 0)
    ∧ (runStep s m p false d (register true true setDirOk setUrlOk).1).isRegistered = false
    ∧ (runStep s m p false d (register true true setDirOk setUrlOk).1).sleptMs = some d
    ∧ (runStep s m p false d (register true true setDirOk setUrlOk).1).nextRetryDelay
        = newRetryDelayAfterFailure m d
    ∧ (runStep s m p
          (runStep s m p false d (register true true setDirOk setUrlOk).1).isRegistered
          (runStep s m p false d (register true true setDirOk setUrlOk).1).nextRetryDelay
          ok').action = RunAction.register := by
  cases setDirOk <;> cases setUrlOk <;> cases ok' <;> simp [register, runStep]

/-- C7: URL choice of the instance-picking step. Whenever at least one
instance was selected, the picked instance's gateway URL is returned with a
nil error if the access type is `gateway` and that URL is non-empty;
otherwise the direct URL is returned with a nil error if non-empty; and if
the picked instance has neither URL the call fails with the
no-usable-address error. -/
theorem C7_access_type_url_selection (dis : List discoveredService)
    (options : DiscoverOptions) (l : String) (ridx : Nat) (r : List Comparator)
    (hp : parseVersion options.Version = .ok r)
    (hne : extractServicesWithVersion dis (rangeMatches r) ≠ []) :
    ((options.AccessType = AccessTypeGateway ∧ (pickedInstance dis r ridx).gatewayURL ≠ "") →
        pickRandomServiceInstance dis options l ridx
          = ((pickedInstance dis r ridx).gatewayURL, none))
    ∧ (¬ (options.AccessType = AccessTypeGateway ∧ (pickedInstance dis r ridx).gatewayURL ≠ "") →
        (pickedInstance dis r ridx).directURL ≠ "" →
        pickRandomServiceInstance dis options l ridx
          = ((pickedInstance dis r ridx).directURL, none))
    ∧ ((pickedInstance dis r ridx).gatewayURL = "" →
        (pickedInstance dis r ridx).directURL = "" →
        (pickRandomServiceInstance dis options l ridx).2
          = some "No service found (no service with URL)") := by
  have hlen : ¬ (extractServicesWithVersion dis (rangeMatches r)).length = 0 := by
    simpa [List.length_eq_zero] using hne
  simp only [pickRandomServiceInstance, hp, if_neg hlen, pickedInstance]
  refine ⟨fun h => ?_, fun h hd => ?_, fun hg hd => ?_⟩
  · rw [if_pos h]
  · rw [if_neg h, if_pos hd]
  · rw [if_neg (fun hc => hc.2 hg), if_neg (fun hc => hc hd)]
    split <;> rfl

/-- C7 witness: one instance carrying both URLs, access type `gateway`,
random draw 0. -/
theorem C7_access_type_url_selection_witness :
    pickRandomServiceInstance [⟨⟨1, 0, 0⟩, "i1", "http://direct", "http://gw"⟩]
      ⟨"svc", "dev", ">=0.0.0", "gateway"⟩ "" 0 = ("http://gw", none) :=
  (C7_access_type_url_selection [⟨⟨1, 0, 0⟩, "i1", "http://direct", "http://gw"⟩]
      ⟨"svc", "dev", ">=0.0.0", "gateway"⟩ "" 0 [⟨.ge, ⟨0, 0, 0⟩⟩]
      (by rfl) (by decide)).1 (by decide)

/-- C8: last-known-address fallback. Whenever the instance-picking
operation fails (the returned error is non-nil), the returned address is the
supplied last-known address when that is non-empty and the empty string
otherwise, and the error is the same one the call produces with no
last-known address supplied. -/
theorem C8_last_known_fallback (dis : List discoveredService)
    (options : DiscoverOptions) (l : String) (ridx : Nat)
    (herr : ((pickRandomServiceInstance dis options l ridx).2).isSome = true) :
    (pickRandomServiceInstance dis options l ridx).1 = (if l = "" then "" else l)
    ∧ (pickRandomServiceInstance dis options l ridx).2
        = (pickRandomServiceInstance dis options "" ridx).2 := by
  simp only [pickRandomServiceInstance] at herr ⊢
  cases hv : parseVersion options.Version with
  | error e =>
    simp only [hv] at herr ⊢
    split_ifs <;> simp_all
  | ok r =>
    simp only [hv] at herr ⊢
    split_ifs at herr ⊢ <;> simp_all

/-- C8 witness: empty registry result, valid constraint, cached address
supplied. -/
theorem C8_last_known_fallback_witness :
    (pickRandomServiceInstance [] ⟨"svc", "dev", ">=0.0.0", "gateway"⟩ "http://cached" 0).1
        = (if ("http://cached" : String) = "" then "" else "http://cached")
    ∧ (pickRandomServiceInstance [] ⟨"svc", "dev", ">=0.0.0", "gateway"⟩ "http://cached" 0).2
        = (pickRandomServiceInstance [] ⟨"svc", "dev", ">=0.0.0", "gateway"⟩ "" 0).2 :=
  C8_last_known_fallback [] ⟨"svc", "dev", ">=0.0.0", "gateway"⟩ "http://cached" 0 (by decide)

/-- C9: Discover defaulting. `fillDefaultDiscoverOptions` turns an empty
environment into `"dev"`, an empty access type into `"gateway"` and an empty
version constraint into `">=0.0.0"`; both `">=0.0.0"` and `"*"` parse to the
range `>=0.0.0`, which accepts a version `v` exactly when `v >= 0.0.0`,
which holds of every version. -/
theorem C9_discover_defaults (options : DiscoverOptions) (v : SemVer) :
    (fillDefaultDiscoverOptions options).Environment
        = (if options.Environment = "" then "dev" else options.Environment)
    ∧ (fillDefaultDiscoverOptions options).AccessType
        = (if options.AccessType = "" then AccessTypeGateway else options.AccessType)
    ∧ (fillDefaultDiscoverOptions options).Version
        = (if options.Version = "" then ">=0.0.0" else options.Version)
    ∧ parseVersion ">=0.0.0" = .ok [⟨.ge, ⟨0, 0, 0⟩⟩]
    ∧ parseVersion "*" = .ok [⟨.ge, ⟨0, 0, 0⟩⟩]
    ∧ rangeMatches [⟨.ge, ⟨0, 0, 0⟩⟩] v = SemVer.GTE v ⟨0, 0, 0⟩
    ∧ SemVer.GTE v ⟨0, 0, 0⟩ = true := by
  refine ⟨?_, ?_, ?_, rfl, rfl, ?_, ?_⟩
  · simp only [fillDefaultDiscoverOptions]
    split_ifs <;> simp_all
  · simp only [fillDefaultDiscoverOptions]
    split_ifs <;> simp_all
  · simp only [fillDefaultDiscoverOptions]
    split_ifs <;> simp_all
  · simp [rangeMatches, Comparator.sat]
  · simp only [SemVer.GTE, SemVer.compareV]
    split_ifs <;> first | rfl | omega

/-- C10: in the etcd `DiscoverService` extraction, the modelled run panics
(dereferences the nil `instances` pointer) exactly when some version
directory returned by the recursive query has no child node named
`instances`; the non-panicking branches are reachable only when every
version directory has such a child. -/
theorem C10_missing_instances_child_panics (versionNodes : List ENode) :
    etcdExtractInstances versionNodes = none
      ↔ ∃ nv ∈ versionNodes, findInstancesChild nv.nodes = none := by
  induction versionNodes with
  | nil => simp [etcdExtractInstances]
  | cons nv rest ih =>
    cases h : findInstancesChild nv.nodes with
    | none =>
      constructor
      · intro _
        exact ⟨nv, List.mem_cons_self nv rest, h⟩
      · intro _
        simp [etcdExtractInstances, h]
    | some instNode =>
      cases hr : etcdExtractInstances rest with
      | none =>
        constructor
        · intro _
          obtain ⟨x, hx, hfx⟩ := ih.mp hr
          exact ⟨x, List.mem_cons_of_mem nv hx, hfx⟩
        · intro _
          simp [etcdExtractInstances, h, hr]
      | some tl =>
        constructor
        · intro hc
          simp [etcdExtractInstances, h, hr] at hc
        · rintro ⟨x, hx, hfx⟩
          rcases List.mem_cons.mp hx with rfl | hx
          · simp [hfx] at h
          · have hnone := ih.mpr ⟨x, hx, hfx⟩
            rw [hnone] at hr
            exact Option.noConfusion hr

end KumuluzeeDiscovery
